import Mathlib

/-!
Verification of the `jcc` palette-quantization core (`jcc/palettes/_base.py`,
`jcc/palettes/__init__.py`).

Machine integers are modelled as `Nat` with explicit `% 2^16` where the code
stores into a `uint16` array; floating-point distances are modelled as exact
rationals.  The color-difference function `delta_e_cie2000` (module `jcc.diff`)
and the conversion `rgb_to_lab` (module `jcc.convert`) are imported by the code
but their modules are not part of the sources verified here, so the embedding
takes them as explicit function parameters: every theorem below holds for an
arbitrary distance / conversion function, hence in particular for CIE2000.
-/

namespace Jcc

/-- An RGB triplet: three 8-bit channels, modelled as naturals. -/
abbrev Rgb := ℕ × ℕ × ℕ

/-- A LAB color: three floating-point components, modelled as rationals. -/
abbrev Lab := ℚ × ℚ × ℚ

/-- A lookup table as stored on disk: a flat numpy array of indices. -/
abbrev Table := List ℕ

/-- The Python exceptions raised by the code under verification.
`fileNotFoundError` is raised by `Palette.lookup_table` when the cache file is
missing; `notImplementedError` by `_get_palette` on an unknown palette name;
`valueError` models the parse failures of `int()` / `np.loadtxt` inside
`Palette.data`; `indexError` models numpy's out-of-bounds indexing error. -/
inductive PyError where
  | fileNotFoundError (msg : String)
  | notImplementedError (msg : String)
  | valueError (msg : String)
  | indexError (msg : String)
  deriving DecidableEq, Repr

/-! ### Models of the numpy operations used by `_get_all_rgbs`

`_get_all_rgbs` builds the 256³×3 array of all RGB triplets from
`np.arange(256, dtype=np.uint8).repeat(256**2)` and reshape/transpose/ravel
views of it.  A 1-D array is modelled as a function from the flat index to the
value, a 2-D array as a function of (row, column). -/

/-- `np.arange(256, dtype=np.uint8).repeat(256**2)`: value at flat index `i`
(each of 0..255 repeated 65536 times). -/
def repeatArange (i : ℕ) : ℕ := i / 65536

/-- `a.reshape((-1, cols))`: the 2-D row-major view of a flat array. -/
def npReshape (cols : ℕ) (a : ℕ → ℕ) : ℕ → ℕ → ℕ := fun p q => a (p * cols + q)

/-- `m.T`: matrix transpose. -/
def npTranspose (m : ℕ → ℕ → ℕ) : ℕ → ℕ → ℕ := fun p q => m q p

/-- `m.ravel()` of a 2-D array whose rows have `cols` entries: the row-major
flattening. -/
def npRavel (cols : ℕ) (m : ℕ → ℕ → ℕ) : ℕ → ℕ := fun j => m (j / cols) (j % cols)

/-- Column 1 of `_get_all_rgbs`: `arr.reshape((-1, 256)).T.ravel()`.
The reshape has 65536 rows of 256 entries, so the transpose has rows of 65536
entries. -/
def allRgbsG : ℕ → ℕ := npRavel 65536 (npTranspose (npReshape 256 repeatArange))

/-- Column 2 of `_get_all_rgbs`: `arr.reshape((-1, 256**2)).T.ravel()`.
The reshape has 256 rows of 65536 entries, so the transpose has rows of 256
entries. -/
def allRgbsB : ℕ → ℕ := npRavel 256 (npTranspose (npReshape 65536 repeatArange))

/-- `_get_all_rgbs` (jcc/palettes/_base.py): the array of all RGB triplets;
row `i` is `(arr[i], arr.reshape((-1,256)).T.ravel()[i],
arr.reshape((-1,256**2)).T.ravel()[i])`. -/
def _get_all_rgbs (i : ℕ) : Rgb := (repeatArange i, allRgbsG i, allRgbsB i)

/-- The rows of `_get_all_rgbs` enumerate the RGB cube in canonical linear
order: red varies slowest, blue fastest. -/
theorem _get_all_rgbs_eq (i : ℕ) (hi : i < 256 ^ 3) :
    _get_all_rgbs i = (i / 65536, i / 256 % 256, i % 256) := by
  have hg : (i % 65536 * 256 + i / 65536) / 65536 = i / 256 % 256 := by
    have h1 : i % 65536 * 256 + i / 65536
        = 65536 * (i / 256 % 256) + (i % 256 * 256 + i / 65536) := by omega
    have h2 : i % 256 * 256 + i / 65536 < 65536 := by omega
    rw [h1, Nat.mul_add_div (by norm_num), Nat.div_eq_of_lt h2, Nat.add_zero]
  have hb : (i % 256 * 65536 + i / 256) / 65536 = i % 256 := by
    have h1 : i % 256 * 65536 + i / 256 = 65536 * (i % 256) + i / 256 := by omega
    have h2 : i / 256 < 65536 := by omega
    rw [h1, Nat.mul_add_div (by norm_num), Nat.div_eq_of_lt h2, Nat.add_zero]
  unfold _get_all_rgbs allRgbsG allRgbsB npRavel npTranspose npReshape repeatArange
  rw [hg, hb]

/-! ### Model of `np.argmin`

`np.argmin` returns the index of the first occurrence of the minimum value of
the array.  `_create_lookup_table` applies it to the (nonempty) array of
distances from one RGB point to every palette color. -/

/-- Index of the first occurrence of the minimum of a list
(the convention of `np.argmin`; `np.argmin` on an empty array raises, here the
empty list is mapped to 0 and all theorems assume nonemptiness). -/
def argminList : List ℚ → ℕ
  | [] => 0
  | [_] => 0
  | x :: y :: ys =>
      let j := argminList (y :: ys)
      if x ≤ (y :: ys).getD j 0 then 0 else j + 1

theorem argminList_lt_length (l : List ℚ) (h : l ≠ []) : argminList l < l.length := by
  induction l with
  | nil => exact absurd rfl h
  | cons x xs ih =>
      cases xs with
      | nil => simp [argminList]
      | cons y ys =>
          have hlt := ih (by simp)
          simp only [argminList]
          split
          · simp
          · simpa using Nat.succ_lt_succ hlt

theorem argminList_min (l : List ℚ) (j : ℕ) (hj : j < l.length) :
    l.getD (argminList l) 0 ≤ l.getD j 0 := by
  induction l generalizing j with
  | nil => simp at hj
  | cons x xs ih =>
      cases xs with
      | nil =>
          have hj0 : j = 0 := by simpa using hj
          subst hj0
          simp [argminList]
      | cons y ys =>
          simp only [argminList]
          split
          · rename_i hle
            cases j with
            | zero => simp
            | succ k =>
                have hk : k < (y :: ys).length := by
                  simpa using Nat.lt_of_succ_lt_succ hj
                calc (x :: y :: ys).getD 0 0 = x := rfl
                  _ ≤ (y :: ys).getD (argminList (y :: ys)) 0 := hle
                  _ ≤ (y :: ys).getD k 0 := ih k hk
                  _ = (x :: y :: ys).getD (k + 1) 0 := rfl
          · rename_i hgt
            push_neg at hgt
            cases j with
            | zero =>
                simpa using le_of_lt hgt
            | succ k =>
                have hk : k < (y :: ys).length := by
                  simpa using Nat.lt_of_succ_lt_succ hj
                simpa using ih k hk

theorem argminList_first (l : List ℚ) (j : ℕ) (hj : j < argminList l) :
    l.getD (argminList l) 0 < l.getD j 0 := by
  induction l generalizing j with
  | nil => simp [argminList] at hj
  | cons x xs ih =>
      cases xs with
      | nil => simp [argminList] at hj
      | cons y ys =>
          simp only [argminList] at hj ⊢
          split
          · rename_i hle
            rw [if_pos hle] at hj
            exact absurd hj (Nat.not_lt_zero j)
          · rename_i hgt
            rw [if_neg hgt] at hj
            push_neg at hgt
            cases j with
            | zero => simpa using hgt
            | succ k =>
                have hk : k < argminList (y :: ys) := Nat.lt_of_succ_lt_succ hj
                simpa using ih k hk

/-! ### Model of the parallel loop (`@njit(parallel=True)` / `prange`)

The numba-parallelized loop of `_create_lookup_table` writes `out[i]` for every
`i` in `range(256**3)`, starting from `np.zeros`; the runtime may execute the
iterations in any order and partition them across any number of threads.  A
schedule is modelled as the list of indices in execution order; each iteration
stores a value that depends only on its own index. -/

/-- Execute the loop body `out[i] := v i` over the indices of `order`, in that
order, starting from the array `init`. -/
def runSchedule (v : ℕ → ℕ) (order : List ℕ) (init : ℕ → ℕ) : ℕ → ℕ :=
  order.foldl (fun acc i => Function.update acc i (v i)) init

theorem runSchedule_cons (v : ℕ → ℕ) (a : ℕ) (rest : List ℕ) (init : ℕ → ℕ) :
    runSchedule v (a :: rest) init = runSchedule v rest (Function.update init a (v a)) := rfl

theorem runSchedule_not_mem (v : ℕ → ℕ) (order : List ℕ) (init : ℕ → ℕ) (i : ℕ)
    (h : i ∉ order) : runSchedule v order init i = init i := by
  induction order generalizing init with
  | nil => rfl
  | cons a rest ih =>
      have hne : i ≠ a := fun he => h (he ▸ List.mem_cons_self a rest)
      have hrest : i ∉ rest := fun hm => h (List.mem_cons_of_mem a hm)
      rw [runSchedule_cons, ih _ hrest, Function.update_noteq hne]

theorem runSchedule_mem (v : ℕ → ℕ) (order : List ℕ) (init : ℕ → ℕ) (i : ℕ)
    (h : i ∈ order) : runSchedule v order init i = v i := by
  induction order generalizing init with
  | nil => simp at h
  | cons a rest ih =>
      by_cases hm : i ∈ rest
      · rw [runSchedule_cons]
        exact ih _ hm
      · have hia : i = a := by
          rcases List.mem_cons.mp h with h1 | h2
          · exact h1
          · exact absurd h2 hm
        subst hia
        rw [runSchedule_cons, runSchedule_not_mem v rest _ i hm, Function.update_same]

/-! ### `_create_lookup_table` (jcc/palettes/_base.py, lines 132–150) -/

/-- The body of one iteration of the outer loop of `_create_lookup_table`:
`deltaes[j] = delta_e_cie2000(all_lab[i], arr_lab[j])` for every palette color
`j`, then `out[i] = np.argmin(deltaes)`, stored into a `uint16` slot (hence the
`% 2^16`).  `delta` stands for `jcc.diff.delta_e_cie2000`, whose module is not
among the verified sources; the float32 array `deltaes` is modelled with exact
rationals. -/
def tableEntry (delta : Lab → Lab → ℚ) (arr_lab : List Lab) (all_lab : ℕ → Lab)
    (i : ℕ) : ℕ :=
  argminList (arr_lab.map (fun c => delta (all_lab i) c)) % 65536

/-- `_create_lookup_table(arr_lab, all_lab)`: starting from `np.zeros(256**3,
dtype=np.uint16)`, a `prange` loop stores `tableEntry` at every index below
`256 ** 3`; the reference schedule executes the indices in order. -/
def _create_lookup_table (delta : Lab → Lab → ℚ) (arr_lab : List Lab)
    (all_lab : ℕ → Lab) : ℕ → ℕ :=
  runSchedule (tableEntry delta arr_lab all_lab) (List.range (256 ^ 3)) (fun _ => 0)

theorem _create_lookup_table_eq (delta : Lab → Lab → ℚ) (arr_lab : List Lab)
    (all_lab : ℕ → Lab) (i : ℕ) (hi : i < 256 ^ 3) :
    _create_lookup_table delta arr_lab all_lab i = tableEntry delta arr_lab all_lab i :=
  runSchedule_mem _ _ _ _ (List.mem_range.mpr hi)

/-- `List.getD` agrees with `List.get` below the length. -/
theorem getD_eq_get {α : Type} (l : List α) (i : ℕ) (d : α) (h : i < l.length) :
    l.getD i d = l[i] := by
  simp [List.getD_eq_getElem?_getD, List.getElem?_eq_getElem h]

theorem getD_map_rat (f : Lab → ℚ) (l : List Lab) (j : ℕ) (h : j < l.length) :
    (l.map f).getD j 0 = f (l.getD j (0, 0, 0)) := by
  have hm : j < (l.map f).length := by simpa using h
  rw [getD_eq_get _ _ _ hm, getD_eq_get _ _ _ h, List.getElem_map]

/-- The selected index of a nonempty distance list is in range, attains the
minimum, and is the least index attaining it. -/
theorem tableEntry_argmin (delta : Lab → Lab → ℚ) (arr_lab : List Lab)
    (all_lab : ℕ → Lab) (i : ℕ) (hne : arr_lab ≠ [])
    (hlen : arr_lab.length ≤ 65536) :
    tableEntry delta arr_lab all_lab i < arr_lab.length ∧
    (∀ j, j < arr_lab.length →
      delta (all_lab i) (arr_lab.getD (tableEntry delta arr_lab all_lab i) (0, 0, 0))
        ≤ delta (all_lab i) (arr_lab.getD j (0, 0, 0))) ∧
    (∀ j, j < tableEntry delta arr_lab all_lab i →
      delta (all_lab i) (arr_lab.getD (tableEntry delta arr_lab all_lab i) (0, 0, 0))
        < delta (all_lab i) (arr_lab.getD j (0, 0, 0))) := by
  set l := arr_lab.map (fun c => delta (all_lab i) c) with hl
  have hlne : l ≠ [] := by
    simpa [hl] using hne
  have hlt : argminList l < l.length := argminList_lt_length l hlne
  have hlength : l.length = arr_lab.length := by simp [hl]
  have hmod : argminList l % 65536 = argminList l :=
    Nat.mod_eq_of_lt (lt_of_lt_of_le hlt (hlength ▸ hlen))
  have hentry : tableEntry delta arr_lab all_lab i = argminList l := by
    rw [tableEntry, ← hl, hmod]
  rw [hentry]
  have harg : argminList l < arr_lab.length := hlength ▸ hlt
  refine ⟨harg, ?_, ?_⟩
  · intro j hj
    have := argminList_min l j (by omega)
    rwa [getD_map_rat _ _ _ harg, getD_map_rat _ _ _ hj] at this
  · intro j hj
    have hjlen : j < arr_lab.length := lt_trans hj harg
    have := argminList_first l j hj
    rwa [getD_map_rat _ _ _ harg, getD_map_rat _ _ _ hjlen] at this

/-! ### Palette loading (`_iterlines` + `np.loadtxt` + `Palette.data`)

`_iterlines` reads the CSV, appends a hex column computed by
`"#" "02x" "02x" "02x"`-formatting the last three integer fields, and
`np.loadtxt` parses the result against the 6-column `Palette.DTYPE`
(group `U20`, name `U50`, r/g/b `u1`, hex `U7`). -/

/-- One row of the structured palette array. -/
structure Row where
  group : String
  name : String
  r : ℕ
  g : ℕ
  b : ℕ
  hex : String
  deriving DecidableEq, Repr

/-- `str.split(sep)` on a character list (string operations are carried out on
the underlying character lists). -/
def splitOnChar (sep : Char) : List Char → List Char → List (List Char)
  | [], acc => [acc.reverse]
  | c :: cs, acc =>
      if c = sep then acc.reverse :: splitOnChar sep cs []
      else splitOnChar sep cs (c :: acc)

/-- `str.strip()`: drop whitespace from both ends. -/
def trimChars (cs : List Char) : List Char :=
  ((cs.dropWhile Char.isWhitespace).reverse.dropWhile Char.isWhitespace).reverse

/-- `int(field)` for a nonnegative decimal field (negative or non-decimal
fields fail; a negative channel would in any case be rejected by the numpy
`u1` cast). -/
def digitsToNat? (cs : List Char) : Option ℕ :=
  if cs ≠ [] ∧ cs.all Char.isDigit then
    some (cs.foldl (fun a c => a * 10 + (c.toNat - 48)) 0)
  else none

/-- Parse one CSV line the way `_iterlines` + `np.loadtxt` consume it: the
line is stripped and split on commas, `_iterlines` appends a `#rrggbb` hex
column, and `np.loadtxt` parses the joined line against the 6-column DTYPE
with its `int()`-style parsing of the channel fields (the `u1` cast rejects
values outside a byte).  Because `np.loadtxt`'s default comment character is
`#`, the line is truncated at the first `#`: the appended hex column is
always read back as the empty string, and a `#` inside the group or name data
fields truncates earlier, aborting the load with a column-count error.  Any
failure models the `ValueError`/`OverflowError` that aborts loading. -/
def parseLine (line : String) : Option Row :=
  match splitOnChar ',' (trimChars line.data) [] with
  | [groupField, nameField, rField, gField, bField] =>
      match digitsToNat? rField, digitsToNat? gField, digitsToNat? bField with
      | some r, some g, some b =>
          if r < 256 ∧ g < 256 ∧ b < 256 then
            if '#' ∈ groupField ∨ '#' ∈ nameField then none
            else some ⟨String.mk groupField, String.mk nameField, r, g, b, ""⟩
          else none
      | _, _, _ => none
  | _ => none

/-- `np.loadtxt(_iterlines(path), dtype=DTYPE)` over the lines of the file:
every line must parse, and the rows are kept in file order.  There is no check
on the number of rows. -/
def loadPalette : List String → Option (List Row)
  | [] => some []
  | line :: rest =>
      match parseLine line, loadPalette rest with
      | some row, some rows => some (row :: rows)
      | _, _ => none

/-- `Path.with_suffix(".npy")`: replace the path's extension with `.npy`
(paths here have no dots in directory components). -/
def withSuffixNpy (path : String) : String :=
  let parts := splitOnChar '.' path.data []
  if parts.length ≤ 1 then path ++ ".npy"
  else String.mk ((parts.dropLast.intersperse ['.']).flatten) ++ ".npy"

/-! ### `Palette` and its methods -/

/-- The file system consulted by a `Palette`: CSV files as the line lists
produced by `open`, and `.npy` cache artifacts as read by `np.load`. -/
structure FS where
  csv : String → Option (List String)
  npy : String → Option Table

/-- `Palette.__init__` stores only the data path; everything else is derived
on demand. -/
structure Palette where
  data_path : String
  deriving DecidableEq, Repr

/-- `self.cached_data_path = self.data_path.with_suffix(".npy")`. -/
def Palette.cached_data_path (p : Palette) : String := withSuffixNpy p.data_path

/-- The message of the `FileNotFoundError` raised by `Palette.lookup_table`
when the cache artifact is missing. -/
def lookupTableMsg : String :=
  "This look up table has not been created yet. First call the `build` method to create the lookup table."

/-- `Palette.lookup_table`: return the contents of the cache artifact if the
file exists, otherwise raise `FileNotFoundError`.  No build is attempted and
the palette data is not consulted. -/
def Palette.lookup_table (p : Palette) (fs : FS) : Except PyError Table :=
  match fs.npy (Palette.cached_data_path p) with
  | some t => Except.ok t
  | none => Except.error (PyError.fileNotFoundError lookupTableMsg)

/-- `Palette.data`: `np.loadtxt(_iterlines(self.data_path), dtype=DTYPE)`. -/
def Palette.data (p : Palette) (fs : FS) : Except PyError (List Row) :=
  match fs.csv p.data_path with
  | none => Except.error (PyError.fileNotFoundError p.data_path)
  | some lines =>
      match loadPalette lines with
      | some rows => Except.ok rows
      | none => Except.error (PyError.valueError "could not parse palette data")

/-- `Palette.rgbs`: `np.column_stack((data["r"], data["g"], data["b"]))`. -/
def Palette.rgbs (p : Palette) (fs : FS) : Except PyError (List Rgb) :=
  (Palette.data p fs).map (fun rows => rows.map (fun row => (row.r, row.g, row.b)))

/-- `Palette.n_colors`: `self.data.shape[0]`. -/
def Palette.n_colors (p : Palette) (fs : FS) : Except PyError ℕ :=
  (Palette.data p fs).map List.length

/-- Modelled from the spec: `rgb_to_ind` from module `jcc.convert`, which is
not among the verified sources.  Per the spec, the linear RGB index of a pixel
is `r*65536 + g*256 + b`, applied pixelwise with the leading shape kept. -/
def rgb_to_ind (px : Rgb) : ℕ := px.1 * 65536 + px.2.1 * 256 + px.2.2

/-- Numpy array indexing `xs[i]` at a single position: `IndexError` when the
index is out of bounds. -/
def npGet {α : Type} (xs : List α) (i : ℕ) : Except PyError α :=
  match xs[i]? with
  | some v => Except.ok v
  | none => Except.error (PyError.indexError "index out of bounds")

/-- Elementwise application of a fallible numpy indexing operation over an
array: numpy raises if any element's lookup raises, otherwise returns the
array of results (fancy indexing). -/
def npMap {α β : Type} (f : α → Except PyError β) : List α → Except PyError (List β)
  | [] => Except.ok []
  | x :: xs =>
      match f x, npMap f xs with
      | Except.ok y, Except.ok ys => Except.ok (y :: ys)
      | Except.error e, _ => Except.error e
      | _, Except.error e => Except.error e

/-- `Palette.convert_to_indices` on a single pixel:
`self.lookup_table[rgb_to_ind(arr)]` (IndexError if the cached table is
shorter than the linear index). -/
def Palette.convert_to_indices_pixel (p : Palette) (fs : FS) (px : Rgb) :
    Except PyError ℕ :=
  match Palette.lookup_table p fs with
  | Except.ok t => npGet t (rgb_to_ind px)
  | Except.error e => Except.error e

/-- `Palette.convert_to_indices` on an H×W image (numpy applies the table
lookup elementwise, keeping the leading shape and dropping the trailing
3-channel axis; IndexError if any pixel's linear index falls outside the
cached table). -/
def Palette.convert_to_indices (p : Palette) (fs : FS) (img : List (List Rgb)) :
    Except PyError (List (List ℕ)) :=
  match Palette.lookup_table p fs with
  | Except.ok t => npMap (fun row => npMap (fun px => npGet t (rgb_to_ind px)) row) img
  | Except.error e => Except.error e

/-- `Palette.convert_to_rgbs` on an H×W image:
`self.rgbs[self.convert_to_indices(arr)]` (Python evaluates `self.rgbs`
first); numpy fancy indexing replaces each index by the palette RGB row,
restoring the trailing 3-channel axis, and raises IndexError if any table
entry is outside the palette RGB array. -/
def Palette.convert_to_rgbs (p : Palette) (fs : FS) (img : List (List Rgb)) :
    Except PyError (List (List Rgb)) :=
  match Palette.rgbs p fs with
  | Except.error e => Except.error e
  | Except.ok colors =>
      match Palette.convert_to_indices p fs img with
      | Except.error e => Except.error e
      | Except.ok idxs => npMap (fun row => npMap (fun i => npGet colors i) row) idxs

/-- `Palette.convert_to_rgbs` on a single pixel. -/
def Palette.convert_to_rgbs_pixel (p : Palette) (fs : FS) (px : Rgb) :
    Except PyError Rgb :=
  match Palette.rgbs p fs with
  | Except.error e => Except.error e
  | Except.ok colors =>
      match Palette.convert_to_indices_pixel p fs px with
      | Except.error e => Except.error e
      | Except.ok i => npGet colors i

/-! ### The module-level registry (`jcc/palettes/__init__.py`) -/

/-- The `x11` palette instance, backed by `data/x11.csv` next to the module. -/
def x11 : Palette := ⟨"data/x11.csv"⟩

/-- The `palette` argument of the public functions: either a registered name
or a `Palette` value. -/
inductive PaletteArg where
  | name (s : String)
  | value (p : Palette)

/-- `_get_palette`: a `Palette` value is returned as is; a name is looked up
in `_PALETTES` (which contains exactly `"x11"`), and an unknown name raises
`NotImplementedError` with message `Unsupported palette: ...`. -/
def _get_palette (arg : PaletteArg) : Except PyError Palette :=
  match arg with
  | PaletteArg.value p => Except.ok p
  | PaletteArg.name s =>
      if s = "x11" then Except.ok x11
      else Except.error (PyError.notImplementedError ("Unsupported palette: " ++ s))

/-- `quantize_with_palette(img, palette)`:
`_get_palette(palette).convert_to_rgbs(img)`. -/
def quantize_with_palette (img : List (List Rgb)) (arg : PaletteArg) (fs : FS) :
    Except PyError (List (List Rgb)) :=
  match _get_palette arg with
  | Except.ok p => Palette.convert_to_rgbs p fs img
  | Except.error e => Except.error e

/-! ### `color_entropy` (jcc/palettes/__init__.py, lines 69–83) -/

/-- `_ETS = 1e-15`. -/
def _ETS : ℚ := 1 / 10 ^ 15

/-- `np.isin(data["color"], ("black", "white", "gray"))` for one row. -/
def isGrayscale (c : String) : Bool := c = "black" || c = "white" || c = "gray"

/-- `color_entropy(data)` over the grouped histogram rows `(color, count)`:
one merged probability for the grayscale groups, one per remaining row,
`value = -sum(p * log2(p + _ETS)) / len(probs)`, then
`value *= copysign(1.0, value)`.  `math.log2` is a parameter `lg` (an
arbitrary real function, modelled on rationals); `copysign(1.0, value)` is
-1 for negative `value` and 1 otherwise. -/
def color_entropy (lg : ℚ → ℚ) (rows : List (String × ℤ)) : ℚ :=
  let total : ℚ := ((rows.map Prod.snd).sum : ℤ)
  let grayProb : ℚ :=
    ((((rows.filter (fun e => isGrayscale e.1)).map Prod.snd).sum : ℤ) : ℚ) / total
  let probs : List ℚ :=
    grayProb :: (rows.filter (fun e => ! isGrayscale e.1)).map (fun e => ((e.2 : ℚ) / total))
  let value : ℚ := -(probs.map (fun p => p * lg (p + _ETS))).sum / probs.length
  value * (if value < 0 then -1 else 1)

/-! ### Lemmas about the numpy indexing model -/

theorem npGet_ok {α : Type} (xs : List α) (i : ℕ) (h : i < xs.length) :
    npGet xs i = Except.ok xs[i] := by
  unfold npGet
  rw [List.getElem?_eq_getElem h]

theorem npGet_ok_mem {α : Type} (xs : List α) (i : ℕ) (v : α)
    (h : npGet xs i = Except.ok v) : v ∈ xs := by
  unfold npGet at h
  rcases hx : xs[i]? with _ | w <;> rw [hx] at h <;> simp at h
  obtain ⟨hlt, hw⟩ := List.getElem?_eq_some.mp hx
  rw [← h, ← hw]
  exact List.getElem_mem hlt

theorem npGet_error_kind {α : Type} (xs : List α) (i : ℕ) (e : PyError)
    (h : npGet xs i = Except.error e) : e = PyError.indexError "index out of bounds" := by
  unfold npGet at h
  rcases hx : xs[i]? with _ | w <;> rw [hx] at h <;> simp at h
  exact h.symm

theorem npMap_ok {α β : Type} (f : α → Except PyError β) :
    ∀ l : List α, (∀ x ∈ l, ∃ y, f x = Except.ok y) →
      ∃ ys, npMap f l = Except.ok ys := by
  intro l
  induction l with
  | nil => exact fun _ => ⟨[], rfl⟩
  | cons x xs ih =>
      intro h
      obtain ⟨y, hy⟩ := h x (List.mem_cons_self x xs)
      obtain ⟨ys, hys⟩ := ih (fun z hz => h z (List.mem_cons_of_mem x hz))
      exact ⟨y :: ys, by simp [npMap, hy, hys]⟩

theorem npMap_forall2_of_ok {α β : Type} (f : α → Except PyError β) :
    ∀ (l : List α) (ys : List β), npMap f l = Except.ok ys →
      List.Forall₂ (fun x y => f x = Except.ok y) l ys := by
  intro l
  induction l with
  | nil =>
      intro ys h
      simp only [npMap] at h
      injection h with h
      rw [← h]
      exact List.Forall₂.nil
  | cons x xs ih =>
      intro ys h
      simp only [npMap] at h
      rcases hfx : f x with e | y <;> rw [hfx] at h
      · simp at h
      · rcases hxs : npMap f xs with e | ys0 <;> rw [hxs] at h
        · simp at h
        · simp only at h
          injection h with h
          rw [← h]
          exact List.Forall₂.cons hfx (ih ys0 hxs)

theorem forall2_mem_right {α β : Type} {R : α → β → Prop} :
    ∀ {l1 : List α} {l2 : List β}, List.Forall₂ R l1 l2 →
      ∀ y ∈ l2, ∃ x ∈ l1, R x y := by
  intro l1 l2 h
  induction h with
  | nil => intro y hy; simp at hy
  | cons hR hRs ih =>
      intro y hy
      rcases List.mem_cons.mp hy with h1 | h2
      · refine ⟨_, List.mem_cons_self _ _, ?_⟩
        rw [h1]
        exact hR
      · obtain ⟨x, hx, hxy⟩ := ih y h2
        exact ⟨x, List.mem_cons_of_mem _ hx, hxy⟩

theorem npMap_mem {α β : Type} (f : α → Except PyError β) (l : List α) (ys : List β)
    (h : npMap f l = Except.ok ys) : ∀ y ∈ ys, ∃ x ∈ l, f x = Except.ok y :=
  forall2_mem_right (npMap_forall2_of_ok f l ys h)

theorem npMap_length {α β : Type} (f : α → Except PyError β) (l : List α) (ys : List β)
    (h : npMap f l = Except.ok ys) : ys.length = l.length :=
  (List.Forall₂.length_eq (npMap_forall2_of_ok f l ys h)).symm

theorem npMap_error {α β : Type} (f : α → Except PyError β) :
    ∀ (l : List α) (e : PyError), npMap f l = Except.error e →
      ∃ x ∈ l, f x = Except.error e := by
  intro l
  induction l with
  | nil => intro e h; simp [npMap] at h
  | cons x xs ih =>
      intro e h
      simp only [npMap] at h
      rcases hfx : f x with e1 | y <;> rw [hfx] at h
      · simp only at h
        injection h with h
        exact ⟨x, List.mem_cons_self x xs, by rw [hfx, h]⟩
      · rcases hxs : npMap f xs with e2 | ys <;> rw [hxs] at h
        · simp only at h
          injection h with h
          obtain ⟨z, hz, hfz⟩ := ih e2 hxs
          exact ⟨z, List.mem_cons_of_mem x hz, by rw [hfz, h]⟩
        · simp at h

theorem forall2_getD {α β : Type} {R : α → β → Prop} :
    ∀ {l1 : List α} {l2 : List β}, List.Forall₂ R l1 l2 →
      ∀ (k : ℕ) (d1 : α) (d2 : β), k < l1.length → R (l1.getD k d1) (l2.getD k d2) := by
  intro l1 l2 h
  induction h with
  | nil => intro k d1 d2 hk; simp at hk
  | cons hR hRs ih =>
      intro k d1 d2 hk
      cases k with
      | zero => simpa using hR
      | succ k2 =>
          have hk2 : k2 < _ := Nat.lt_of_succ_lt_succ hk
          simpa using ih k2 d1 d2 hk2

/-! ### Which errors each palette operation can raise -/

theorem data_error_kinds (p : Palette) (fs : FS) (e : PyError)
    (h : Palette.data p fs = Except.error e) :
    (∃ m, e = PyError.fileNotFoundError m) ∨ (∃ m, e = PyError.valueError m) := by
  unfold Palette.data at h
  split at h
  · injection h with h
    exact Or.inl ⟨p.data_path, h.symm⟩
  · split at h
    · simp at h
    · injection h with h
      exact Or.inr ⟨_, h.symm⟩

theorem rgbs_error_kinds (p : Palette) (fs : FS) (e : PyError)
    (h : Palette.rgbs p fs = Except.error e) :
    (∃ m, e = PyError.fileNotFoundError m) ∨ (∃ m, e = PyError.valueError m) := by
  unfold Palette.rgbs at h
  rcases hd : Palette.data p fs with e0 | rows <;> rw [hd] at h <;> simp [Except.map] at h
  rw [← h]
  exact data_error_kinds p fs e0 hd

theorem convert_to_indices_error_kinds (p : Palette) (fs : FS)
    (img : List (List Rgb)) (e : PyError)
    (h : Palette.convert_to_indices p fs img = Except.error e) :
    (∃ m, e = PyError.fileNotFoundError m) ∨ (∃ m, e = PyError.indexError m) := by
  unfold Palette.convert_to_indices at h
  rcases ht : Palette.lookup_table p fs with e0 | t <;> rw [ht] at h
  · simp only at h
    injection h with h
    unfold Palette.lookup_table at ht
    rcases hnpy : fs.npy (Palette.cached_data_path p) with _ | t2 <;> rw [hnpy] at ht <;>
      simp only at ht
    · injection ht with ht
      exact Or.inl ⟨lookupTableMsg, by rw [← h, ← ht]⟩
    · simp at ht
  · simp only at h
    obtain ⟨row, _, hrow⟩ := npMap_error _ img e h
    obtain ⟨q, _, hq⟩ := npMap_error _ row e hrow
    exact Or.inr ⟨_, npGet_error_kind t (rgb_to_ind q) e hq⟩

theorem convert_to_rgbs_error_kinds (p : Palette) (fs : FS)
    (img : List (List Rgb)) (e : PyError)
    (h : Palette.convert_to_rgbs p fs img = Except.error e) :
    (∃ m, e = PyError.fileNotFoundError m) ∨ (∃ m, e = PyError.valueError m) ∨
    (∃ m, e = PyError.indexError m) := by
  unfold Palette.convert_to_rgbs at h
  rcases hr : Palette.rgbs p fs with e0 | colors <;> rw [hr] at h
  · simp only at h
    injection h with h
    rcases rgbs_error_kinds p fs e0 hr with ⟨m, hm⟩ | ⟨m, hm⟩
    · exact Or.inl ⟨m, by rw [← h, hm]⟩
    · exact Or.inr (Or.inl ⟨m, by rw [← h, hm]⟩)
  · rcases hi : Palette.convert_to_indices p fs img with e1 | idxs <;> rw [hi] at h
    · simp only at h
      injection h with h
      rcases convert_to_indices_error_kinds p fs img e1 hi with ⟨m, hm⟩ | ⟨m, hm⟩
      · exact Or.inl ⟨m, by rw [← h, hm]⟩
      · exact Or.inr (Or.inr ⟨m, by rw [← h, hm]⟩)
    · simp only at h
      obtain ⟨orow, _, horow⟩ := npMap_error _ idxs e h
      obtain ⟨i, _, hii⟩ := npMap_error _ orow e horow
      exact Or.inr (Or.inr ⟨_, npGet_error_kind colors i e hii⟩)

/-! ### The claims -/

/-- C1: for every palette with at least one color (and at most 2^16, the
palette-type invariant), the lookup table built by `_create_lookup_table` over
the all-RGB LAB array from `_get_all_rgbs` holds, at linear index
`r*65536 + g*256 + b`, an in-range palette index whose LAB value minimizes the
distance to the LAB value of RGB `(r,g,b)`; and `_get_all_rgbs` enumerates the
RGB triplets in canonical order, red slowest and blue fastest.  `delta` and
`rgbToLab` stand for `delta_e_cie2000` and `rgb_to_lab` (modules `jcc.diff`,
`jcc.convert`), so the statement holds in particular for CIE2000. -/
theorem claim1_lookup_table_nearest
    (delta : Lab → Lab → ℚ) (rgbToLab : Rgb → Lab) (labs : List Lab)
    (hne : labs ≠ []) (hlen : labs.length ≤ 65536)
    (r g b : ℕ) (hr : r < 256) (hg : g < 256) (hb : b < 256) :
    _get_all_rgbs (r * 65536 + g * 256 + b) = (r, g, b) ∧
    _create_lookup_table delta labs (fun k => rgbToLab (_get_all_rgbs k))
        (r * 65536 + g * 256 + b) < labs.length ∧
    ∀ j, j < labs.length →
      delta (rgbToLab (r, g, b))
          (labs.getD (_create_lookup_table delta labs (fun k => rgbToLab (_get_all_rgbs k))
            (r * 65536 + g * 256 + b)) (0, 0, 0))
        ≤ delta (rgbToLab (r, g, b)) (labs.getD j (0, 0, 0)) := by
  have hi : r * 65536 + g * 256 + b < 256 ^ 3 := by omega
  have hall : _get_all_rgbs (r * 65536 + g * 256 + b) = (r, g, b) := by
    rw [_get_all_rgbs_eq _ hi]
    have h1 : (r * 65536 + g * 256 + b) / 65536 = r := by omega
    have h2 : (r * 65536 + g * 256 + b) / 256 % 256 = g := by omega
    have h3 : (r * 65536 + g * 256 + b) % 256 = b := by omega
    rw [h1, h2, h3]
  have hbridge := _create_lookup_table_eq delta labs
    (fun k => rgbToLab (_get_all_rgbs k)) _ hi
  obtain ⟨hlt, hmin, _⟩ := tableEntry_argmin delta labs
    (fun k => rgbToLab (_get_all_rgbs k)) (r * 65536 + g * 256 + b) hne hlen
  rw [hbridge]
  refine ⟨hall, hlt, fun j hj => ?_⟩
  have := hmin j hj
  simpa [hall] using this

/-- Witness for C1 at the singleton black palette and the origin pixel. -/
theorem claim1_witness :
    _get_all_rgbs (0 * 65536 + 0 * 256 + 0) = (0, 0, 0) ∧
    _create_lookup_table (fun _ _ => 0) [((0 : ℚ), (0 : ℚ), (0 : ℚ))]
        (fun k => (fun _ => ((0 : ℚ), (0 : ℚ), (0 : ℚ))) (_get_all_rgbs k))
        (0 * 65536 + 0 * 256 + 0) < [((0 : ℚ), (0 : ℚ), (0 : ℚ))].length ∧
    ∀ j, j < [((0 : ℚ), (0 : ℚ), (0 : ℚ))].length →
      (fun _ _ => (0 : ℚ)) ((fun _ => ((0 : ℚ), (0 : ℚ), (0 : ℚ))) ((0, 0, 0) : Rgb))
          ([((0 : ℚ), (0 : ℚ), (0 : ℚ))].getD
            (_create_lookup_table (fun _ _ => 0) [((0 : ℚ), (0 : ℚ), (0 : ℚ))]
              (fun k => (fun _ => ((0 : ℚ), (0 : ℚ), (0 : ℚ))) (_get_all_rgbs k))
              (0 * 65536 + 0 * 256 + 0)) (0, 0, 0))
        ≤ (fun _ _ => (0 : ℚ)) ((fun _ => ((0 : ℚ), (0 : ℚ), (0 : ℚ))) ((0, 0, 0) : Rgb))
            ([((0 : ℚ), (0 : ℚ), (0 : ℚ))].getD j (0, 0, 0)) :=
  claim1_lookup_table_nearest (fun _ _ => 0) (fun _ => ((0 : ℚ), (0 : ℚ), (0 : ℚ)))
    [((0 : ℚ), (0 : ℚ), (0 : ℚ))] (List.cons_ne_nil _ _) (by decide)
    0 0 0 (by decide) (by decide) (by decide)

/-- C2: if two (or more) palette colors are at equal minimal distance from the
query color of entry `i`, the table entry selects the lowest such palette
index: the entry both attains the minimal distance and is at most every tied
minimizing index (`np.argmin` first-occurrence convention). -/
theorem claim2_argmin_tie_break
    (delta : Lab → Lab → ℚ) (labs : List Lab) (all_lab : ℕ → Lab)
    (hne : labs ≠ []) (hlen : labs.length ≤ 65536)
    (i : ℕ) (hi : i < 256 ^ 3)
    (j1 j2 : ℕ) (hj1 : j1 < labs.length) (hj2 : j2 < labs.length) (hj12 : j1 ≠ j2)
    (heq : delta (all_lab i) (labs.getD j1 (0, 0, 0))
         = delta (all_lab i) (labs.getD j2 (0, 0, 0)))
    (hmin : ∀ k, k < labs.length →
      delta (all_lab i) (labs.getD j1 (0, 0, 0))
        ≤ delta (all_lab i) (labs.getD k (0, 0, 0))) :
    _create_lookup_table delta labs all_lab i ≤ j1 ∧
    _create_lookup_table delta labs all_lab i ≤ j2 ∧
    delta (all_lab i) (labs.getD (_create_lookup_table delta labs all_lab i) (0, 0, 0))
      = delta (all_lab i) (labs.getD j1 (0, 0, 0)) := by
  rw [_create_lookup_table_eq delta labs all_lab i hi]
  obtain ⟨hlt, hminE, hfirst⟩ := tableEntry_argmin delta labs all_lab i hne hlen
  have hle1 : tableEntry delta labs all_lab i ≤ j1 := by
    by_contra hgt
    push_neg at hgt
    exact absurd (hmin _ hlt) (not_le_of_lt (hfirst j1 hgt))
  have hle2 : tableEntry delta labs all_lab i ≤ j2 := by
    by_contra hgt
    push_neg at hgt
    have := hfirst j2 hgt
    rw [← heq] at this
    exact absurd (hmin _ hlt) (not_le_of_lt this)
  exact ⟨hle1, hle2, le_antisymm (hminE j1 hj1) (hmin _ hlt)⟩

/-- Witness for C2 at a two-color palette whose colors are both at distance 0
from the query: the selected entry is index 0, the lowest of the tie. -/
theorem claim2_witness :
    _create_lookup_table (fun _ _ => 0) [((0 : ℚ), (0 : ℚ), (0 : ℚ)), ((1 : ℚ), (0 : ℚ), (0 : ℚ))]
        (fun _ => ((0 : ℚ), (0 : ℚ), (0 : ℚ))) 0 ≤ 0 ∧
    _create_lookup_table (fun _ _ => 0) [((0 : ℚ), (0 : ℚ), (0 : ℚ)), ((1 : ℚ), (0 : ℚ), (0 : ℚ))]
        (fun _ => ((0 : ℚ), (0 : ℚ), (0 : ℚ))) 0 ≤ 1 ∧
    (fun _ _ => (0 : ℚ)) ((fun _ => (((0 : ℚ), (0 : ℚ), (0 : ℚ)) : Lab)) 0)
        ([((0 : ℚ), (0 : ℚ), (0 : ℚ)), ((1 : ℚ), (0 : ℚ), (0 : ℚ))].getD
          (_create_lookup_table (fun _ _ => 0)
            [((0 : ℚ), (0 : ℚ), (0 : ℚ)), ((1 : ℚ), (0 : ℚ), (0 : ℚ))]
            (fun _ => ((0 : ℚ), (0 : ℚ), (0 : ℚ))) 0) (0, 0, 0))
      = (fun _ _ => (0 : ℚ)) ((fun _ => (((0 : ℚ), (0 : ℚ), (0 : ℚ)) : Lab)) 0)
          ([((0 : ℚ), (0 : ℚ), (0 : ℚ)), ((1 : ℚ), (0 : ℚ), (0 : ℚ))].getD 0 (0, 0, 0)) :=
  claim2_argmin_tie_break (fun _ _ => 0)
    [((0 : ℚ), (0 : ℚ), (0 : ℚ)), ((1 : ℚ), (0 : ℚ), (0 : ℚ))]
    (fun _ => ((0 : ℚ), (0 : ℚ), (0 : ℚ))) (List.cons_ne_nil _ _) (by decide)
    0 (by decide) 0 1 (by decide) (by decide) (by decide) rfl (fun k _ => le_refl 0)

/-- C4: the lookup table is deterministic and schedule-independent: running
the parallel loop under any two schedules that cover slot `i` (any thread
count or work partitioning) stores the same value at `i`, that value depends
only on slot `i`'s own input row and the palette LAB array (`all1` and `all2`
may differ everywhere except at `i`), and the reference build equals the pure
per-slot value. -/
theorem claim4_schedule_independence
    (delta : Lab → Lab → ℚ) (labs : List Lab) (all1 all2 : ℕ → Lab)
    (order1 order2 : List ℕ) (i : ℕ) (hi : i < 256 ^ 3)
    (h1 : i ∈ order1) (h2 : i ∈ order2) (hrow : all1 i = all2 i) :
    runSchedule (tableEntry delta labs all1) order1 (fun _ => 0) i
      = runSchedule (tableEntry delta labs all2) order2 (fun _ => 0) i ∧
    _create_lookup_table delta labs all1 i = tableEntry delta labs all1 i := by
  have e1 := runSchedule_mem (tableEntry delta labs all1) order1 (fun _ => 0) i h1
  have e2 := runSchedule_mem (tableEntry delta labs all2) order2 (fun _ => 0) i h2
  have hloc : tableEntry delta labs all1 i = tableEntry delta labs all2 i := by
    unfold tableEntry
    rw [hrow]
  exact ⟨by rw [e1, e2, hloc], _create_lookup_table_eq delta labs all1 i hi⟩

/-- Witness for C4: two different schedules of slot 0 with input rows agreeing
only at slot 0. -/
theorem claim4_witness :
    runSchedule (tableEntry (fun _ _ => 0) [((0 : ℚ), (0 : ℚ), (0 : ℚ))]
        (fun _ => ((0 : ℚ), (0 : ℚ), (0 : ℚ)))) [0, 1] (fun _ => 0) 0
      = runSchedule (tableEntry (fun _ _ => 0) [((0 : ℚ), (0 : ℚ), (0 : ℚ))]
          (fun k => ((k : ℚ), (0 : ℚ), (0 : ℚ)))) [1, 0] (fun _ => 0) 0 ∧
    _create_lookup_table (fun _ _ => 0) [((0 : ℚ), (0 : ℚ), (0 : ℚ))]
        (fun _ => ((0 : ℚ), (0 : ℚ), (0 : ℚ))) 0
      = tableEntry (fun _ _ => 0) [((0 : ℚ), (0 : ℚ), (0 : ℚ))]
          (fun _ => ((0 : ℚ), (0 : ℚ), (0 : ℚ))) 0 :=
  claim4_schedule_independence (fun _ _ => 0) [((0 : ℚ), (0 : ℚ), (0 : ℚ))]
    (fun _ => ((0 : ℚ), (0 : ℚ), (0 : ℚ))) (fun k => ((k : ℚ), (0 : ℚ), (0 : ℚ)))
    [0, 1] [1, 0] 0 (by decide) (by decide) (by decide) (by norm_num)

/-- C9: every entry of the lookup table built for a palette with at least one
color is strictly less than the number of palette colors (even with the
`uint16` store, which can only shrink the `argmin` value), so applying the
table in `Palette.convert_to_rgbs` never indexes out of the palette RGB
array. -/
theorem claim9_entries_in_range
    (delta : Lab → Lab → ℚ) (labs : List Lab) (all_lab : ℕ → Lab)
    (hne : labs ≠ []) (i : ℕ) (hi : i < 256 ^ 3) :
    _create_lookup_table delta labs all_lab i < labs.length := by
  rw [_create_lookup_table_eq delta labs all_lab i hi]
  have hlne : labs.map (fun c => delta (all_lab i) c) ≠ [] := by simpa using hne
  have h := argminList_lt_length _ hlne
  have hlength : (labs.map (fun c => delta (all_lab i) c)).length = labs.length := by simp
  calc tableEntry delta labs all_lab i
      ≤ argminList (labs.map (fun c => delta (all_lab i) c)) := Nat.mod_le _ _
    _ < labs.length := hlength ▸ h

/-- Witness for C9 at the singleton palette and slot 0. -/
theorem claim9_witness :
    _create_lookup_table (fun _ _ => 0) [((0 : ℚ), (0 : ℚ), (0 : ℚ))]
        (fun _ => ((0 : ℚ), (0 : ℚ), (0 : ℚ))) 0
      < [((0 : ℚ), (0 : ℚ), (0 : ℚ))].length :=
  claim9_entries_in_range (fun _ _ => 0) [((0 : ℚ), (0 : ℚ), (0 : ℚ))]
    (fun _ => ((0 : ℚ), (0 : ℚ), (0 : ℚ))) (List.cons_ne_nil _ _) 0 (by decide)

/-- C3 counterexample: with the palette CSV present but no cache artifact,
quantization does not build the table transparently — it fails with the
`FileNotFoundError` of `Palette.lookup_table`. -/
theorem claim3_counterexample :
    Palette.convert_to_indices ⟨"data/x11.csv"⟩
        ⟨fun _ => some ["black,c,0,0,0"], fun _ => none⟩ [[(0, 0, 0)]]
      = Except.error (PyError.fileNotFoundError lookupTableMsg) := rfl

/-- C3 as amended: if the lookup table has not been built/cached for the
palette, quantization does not invoke the builder; `Palette.lookup_table` and
with it `Palette.convert_to_indices` raise `FileNotFoundError`, whose message
instructs the caller to call `build` first. -/
theorem claim3_no_lazy_build (p : Palette) (fs : FS) (img : List (List Rgb))
    (h : fs.npy (Palette.cached_data_path p) = none) :
    Palette.lookup_table p fs = Except.error (PyError.fileNotFoundError lookupTableMsg) ∧
    Palette.convert_to_indices p fs img
      = Except.error (PyError.fileNotFoundError lookupTableMsg) := by
  have hl : Palette.lookup_table p fs
      = Except.error (PyError.fileNotFoundError lookupTableMsg) := by
    unfold Palette.lookup_table
    rw [h]
  refine ⟨hl, ?_⟩
  unfold Palette.convert_to_indices
  rw [hl]

/-- Witness for C3 (amended) at a concrete palette without a cache file. -/
theorem claim3_witness :
    Palette.lookup_table ⟨"p.csv"⟩ ⟨fun _ => some [], fun _ => none⟩
      = Except.error (PyError.fileNotFoundError lookupTableMsg) ∧
    Palette.convert_to_indices ⟨"p.csv"⟩ ⟨fun _ => some [], fun _ => none⟩ [[(1, 2, 3)]]
      = Except.error (PyError.fileNotFoundError lookupTableMsg) :=
  claim3_no_lazy_build ⟨"p.csv"⟩ ⟨fun _ => some [], fun _ => none⟩ [[(1, 2, 3)]] rfl

/-- C5: quantization preserves the image shape.  For a palette whose data
loads and whose cached table is a well-formed lookup table for it — full
length `256 ** 3` (as `build` always writes, §C1) with every entry a valid
palette index (§C9) — `Palette.convert_to_rgbs` on an H×W image of 8-bit
pixels succeeds and returns an image with the same number of rows, each of
the same length (the trailing 3-channel axis is rebuilt by the palette-RGB
fancy indexing), and on a single pixel it returns a single pixel.  The
well-formedness hypotheses are exactly what keeps numpy's bounds-checked
indexing from raising `IndexError`. -/
theorem claim5_shape_preservation (p : Palette) (fs : FS) (t : Table)
    (colors : List Rgb) (ht : Palette.lookup_table p fs = Except.ok t)
    (hc : Palette.rgbs p fs = Except.ok colors)
    (htlen : t.length = 256 ^ 3)
    (hent : ∀ e ∈ t, e < colors.length)
    (img : List (List Rgb)) (px : Rgb)
    (himg : ∀ row ∈ img, ∀ q ∈ row, q.1 < 256 ∧ q.2.1 < 256 ∧ q.2.2 < 256)
    (hpx : px.1 < 256 ∧ px.2.1 < 256 ∧ px.2.2 < 256) :
    (∃ out, Palette.convert_to_rgbs p fs img = Except.ok out ∧
      out.length = img.length ∧
      ∀ k, (out.getD k []).length = (img.getD k []).length) ∧
    (∃ q : Rgb, Palette.convert_to_rgbs_pixel p fs px = Except.ok q) := by
  have hpow : (256 : ℕ) ^ 3 = 16777216 := by norm_num
  have hindlt : ∀ q : Rgb, q.1 < 256 → q.2.1 < 256 → q.2.2 < 256 →
      rgb_to_ind q < t.length := by
    intro q h1 h2 h3
    unfold rgb_to_ind
    rw [htlen]
    omega
  have hstage1 : ∀ row ∈ img, ∃ orow,
      npMap (fun q => npGet t (rgb_to_ind q)) row = Except.ok orow := by
    intro row hrow
    apply npMap_ok
    intro q hq
    obtain ⟨h1, h2, h3⟩ := himg row hrow q hq
    exact ⟨_, npGet_ok t _ (hindlt q h1 h2 h3)⟩
  obtain ⟨idxs, hidxs⟩ := npMap_ok _ img hstage1
  have hF1 := npMap_forall2_of_ok _ img idxs hidxs
  have hidx_bound : ∀ orow ∈ idxs, ∀ i ∈ orow, i < colors.length := by
    intro orow horow i hi
    obtain ⟨row, hrowmem, hrel⟩ := forall2_mem_right hF1 orow horow
    obtain ⟨q, hqmem, hq⟩ := npMap_mem _ row orow hrel i hi
    exact hent i (npGet_ok_mem t (rgb_to_ind q) i hq)
  have hstage2 : ∀ orow ∈ idxs, ∃ outrow,
      npMap (fun i => npGet colors i) orow = Except.ok outrow := by
    intro orow horow
    apply npMap_ok
    intro i hi
    exact ⟨_, npGet_ok colors i (hidx_bound orow horow i hi)⟩
  obtain ⟨out, hout⟩ := npMap_ok _ idxs hstage2
  have hF2 := npMap_forall2_of_ok _ idxs out hout
  have hlen1 : idxs.length = img.length := (List.Forall₂.length_eq hF1).symm
  have hlen2 : out.length = idxs.length := (List.Forall₂.length_eq hF2).symm
  have hconv_idx : Palette.convert_to_indices p fs img = Except.ok idxs := by
    unfold Palette.convert_to_indices
    rw [ht]
    exact hidxs
  constructor
  · refine ⟨out, ?_, by omega, ?_⟩
    · unfold Palette.convert_to_rgbs
      rw [hc, hconv_idx]
      exact hout
    · intro k
      by_cases hk : k < img.length
      · have hk1 : k < idxs.length := by omega
        have hr1 := forall2_getD hF1 k [] [] hk
        have hr2 := forall2_getD hF2 k [] [] hk1
        have l1 := npMap_length _ _ _ hr1
        have l2 := npMap_length _ _ _ hr2
        omega
      · push_neg at hk
        rw [List.getD_eq_default _ _ (by omega : out.length ≤ k),
          List.getD_eq_default _ _ hk]
  · obtain ⟨h1, h2, h3⟩ := hpx
    have hlt1 : rgb_to_ind px < t.length := hindlt px h1 h2 h3
    have hg1 := npGet_ok t _ hlt1
    have hlt2 : t[rgb_to_ind px] < colors.length := hent _ (List.getElem_mem hlt1)
    have hg2 := npGet_ok colors _ hlt2
    have hcp : Palette.convert_to_indices_pixel p fs px = Except.ok t[rgb_to_ind px] := by
      unfold Palette.convert_to_indices_pixel
      rw [ht]
      exact hg1
    refine ⟨colors[t[rgb_to_ind px]], ?_⟩
    unfold Palette.convert_to_rgbs_pixel
    rw [hc, hcp]
    exact hg2

/-- Witness for C5 at a 1×2 image and a single pixel over a palette whose CSV
parses (one row) and whose cache artifact is a full-length all-zero table. -/
theorem claim5_witness :
    (∃ out, Palette.convert_to_rgbs ⟨"p.csv"⟩
        ⟨fun _ => some ["black,c,1,2,3"], fun _ => some (List.replicate (256 ^ 3) 0)⟩
        [[(0, 0, 0), (9, 9, 9)]] = Except.ok out ∧
      out.length = [[((0 : ℕ), (0 : ℕ), (0 : ℕ)), (9, 9, 9)]].length ∧
      ∀ k, (out.getD k []).length
        = ([[((0 : ℕ), (0 : ℕ), (0 : ℕ)), (9, 9, 9)]].getD k []).length) ∧
    (∃ q : Rgb, Palette.convert_to_rgbs_pixel ⟨"p.csv"⟩
        ⟨fun _ => some ["black,c,1,2,3"], fun _ => some (List.replicate (256 ^ 3) 0)⟩
        (5, 5, 5) = Except.ok q) :=
  claim5_shape_preservation ⟨"p.csv"⟩
    ⟨fun _ => some ["black,c,1,2,3"], fun _ => some (List.replicate (256 ^ 3) 0)⟩
    (List.replicate (256 ^ 3) 0) [(1, 2, 3)] rfl (by rfl)
    (List.length_replicate (256 ^ 3) 0)
    (fun e he => by rw [List.eq_of_mem_replicate he]; decide)
    [[(0, 0, 0), (9, 9, 9)]] (5, 5, 5) (by decide) (by decide)

/-- C7: requesting a palette under a name that is not registered fails with
the `Unsupported palette` error (raised by the code as `NotImplementedError`,
the condition the spec calls `UnsupportedPaletteError`), while passing a
`Palette` value directly always succeeds in `_get_palette`, and
`quantize_with_palette` on a palette value can never fail with that error. -/
theorem claim7_unsupported_palette (s : String) (hs : s ≠ "x11") :
    _get_palette (PaletteArg.name s)
      = Except.error (PyError.notImplementedError ("Unsupported palette: " ++ s)) ∧
    (∀ p : Palette, _get_palette (PaletteArg.value p) = Except.ok p) ∧
    (∀ (p : Palette) (fs : FS) (img : List (List Rgb)) (msg : String),
      quantize_with_palette img (PaletteArg.value p) fs
        ≠ Except.error (PyError.notImplementedError msg)) := by
  refine ⟨by simp [_get_palette, hs], fun p => rfl, fun p fs img msg => ?_⟩
  intro heq
  have hq : quantize_with_palette img (PaletteArg.value p) fs
      = Palette.convert_to_rgbs p fs img := rfl
  rw [hq] at heq
  rcases convert_to_rgbs_error_kinds p fs img _ heq with ⟨m, hm⟩ | ⟨m, hm⟩ | ⟨m, hm⟩ <;>
    simp at hm

/-- Witness for C7 at the unregistered name "web". -/
theorem claim7_witness :
    _get_palette (PaletteArg.name "web")
      = Except.error (PyError.notImplementedError ("Unsupported palette: " ++ "web")) ∧
    (∀ p : Palette, _get_palette (PaletteArg.value p) = Except.ok p) ∧
    (∀ (p : Palette) (fs : FS) (img : List (List Rgb)) (msg : String),
      quantize_with_palette img (PaletteArg.value p) fs
        ≠ Except.error (PyError.notImplementedError msg)) :=
  claim7_unsupported_palette "web" (by decide)

/-- C8: whenever the cache artifact for a palette's lookup table exists,
`Palette.lookup_table` returns exactly the file's contents, and its result is
unchanged under any modification of the palette's CSV data (or of any other
file) that keeps the cache entry: the stale cached table is served even if the
palette's colors changed. -/
theorem claim8_stale_cache (p : Palette) (fs fs2 : FS) (t : Table)
    (ht : fs.npy (Palette.cached_data_path p) = some t)
    (hsame : fs2.npy (Palette.cached_data_path p) = fs.npy (Palette.cached_data_path p)) :
    Palette.lookup_table p fs = Except.ok t ∧
    Palette.lookup_table p fs2 = Palette.lookup_table p fs := by
  unfold Palette.lookup_table
  rw [ht, hsame, ht]
  exact ⟨rfl, rfl⟩

/-- Witness for C8: the cached table [4] is served both before and after the
palette CSV content changes. -/
theorem claim8_witness :
    Palette.lookup_table ⟨"p.csv"⟩ ⟨fun _ => some ["black,c,1,2,3"], fun _ => some [4]⟩
      = Except.ok [4] ∧
    Palette.lookup_table ⟨"p.csv"⟩ ⟨fun _ => some ["red,d,200,0,0"], fun _ => some [4]⟩
      = Palette.lookup_table ⟨"p.csv"⟩ ⟨fun _ => some ["black,c,1,2,3"], fun _ => some [4]⟩ :=
  claim8_stale_cache ⟨"p.csv"⟩ ⟨fun _ => some ["black,c,1,2,3"], fun _ => some [4]⟩
    ⟨fun _ => some ["red,d,200,0,0"], fun _ => some [4]⟩ [4] rfl rfl

/-- C10: for every histogram input with positive total count (and any value of
the `log2` function), `color_entropy` is nonnegative: the final
`value *= copysign(1.0, value)` makes the result the absolute value of the raw
normalized entropy. -/
theorem claim10_entropy_nonneg (lg : ℚ → ℚ) (rows : List (String × ℤ))
    (htotal : 0 < (rows.map Prod.snd).sum) :
    0 ≤ color_entropy lg rows := by
  have key : ∀ v : ℚ, 0 ≤ v * (if v < 0 then -1 else 1) := by
    intro v
    by_cases hneg : v < 0
    · rw [if_pos hneg]
      nlinarith
    · rw [if_neg hneg]
      push_neg at hneg
      nlinarith
  simp only [color_entropy]
  exact key _

/-- Witness for C10 at a one-row histogram with count 1 and the zero `log2`. -/
theorem claim10_witness : 0 ≤ color_entropy (fun _ => 0) [("black", 1)] :=
  claim10_entropy_nonneg (fun _ => 0) [("black", 1)] (by decide)

theorem data_of_load (p : Palette) (fs : FS) (lines : List String) (rows : List Row)
    (hcsv : fs.csv p.data_path = some lines) (hload : loadPalette lines = some rows) :
    Palette.data p fs = Except.ok rows := by
  unfold Palette.data
  rw [hcsv]
  show (match loadPalette lines with
    | some rows => Except.ok rows
    | none => Except.error (PyError.valueError "could not parse palette data")) = Except.ok rows
  rw [hload]

theorem loadPalette_replicate (line : String) (row : Row)
    (hf : parseLine line = some row) :
    ∀ n, loadPalette (List.replicate n line) = some (List.replicate n row) := by
  intro n
  induction n with
  | zero => rfl
  | succ k ih => simp [List.replicate_succ, loadPalette, hf, ih]

/-- C6 evidence: palette loading performs no size validation and defines no
`PaletteLoadError`.  A well-formed CSV with 65,537 rows loads into a `Palette`
value of 65,537 colors — more than fit a 16-bit table index, and more than the
class docstring ("palettes cannot have more than 2**16 colors") allows. -/
theorem claim6_oversized_palette_loads :
    ∃ rows, Palette.data ⟨"x11.csv"⟩
        ⟨fun _ => some (List.replicate 65537 "black,c,0,0,0"), fun _ => none⟩
        = Except.ok rows ∧ rows.length = 65537 := by
  have hline : parseLine "black,c,0,0,0" = some ⟨"black", "c", 0, 0, 0, ""⟩ := by rfl
  have hload : loadPalette (List.replicate 65537 "black,c,0,0,0")
      = some (List.replicate 65537 ⟨"black", "c", 0, 0, 0, ""⟩) :=
    loadPalette_replicate _ _ hline 65537
  exact ⟨List.replicate 65537 ⟨"black", "c", 0, 0, 0, ""⟩,
    data_of_load _ _ _ _ rfl hload, List.length_replicate 65537 _⟩

end Jcc
